import Mathlib

/-!
Verification development for the vidigi toolkit (event-log animation for
discrete-event simulations).

The definitions below are a shallow embedding of the Python sources
`vidigi/utils.py`, `vidigi/prep.py` and `vidigi/animation.py`:

* the optimized priority store `VidigiPriorityStore` (get / put /
  return_item / _process_put_queue) is modelled as a pure state machine;
* the legacy priority store queue (simpy SortedQueue keyed by the
  `PriorityGetLegacy` sort key) is modelled as stable sorted insertion;
* the scoped-acquisition context managers `_StoreRequest` and
  `_OptimizedStoreRequest` are modelled by their `exit` actions;
* the `BaseEvent` pydantic validators are modelled as a pipeline
  returning either an error or the record plus its warnings;
* `reshape_for_animations` and `generate_animation_df` are modelled over
  lists of records, with pandas dataframes as lists of rows (row order of
  the final unstable sorts is not modelled; all properties proved are
  invariant under permutation of rows);
* Python keyword-argument passing between `animate_activity_log` and
  `generate_animation_df` is modelled by the sets of parameter names.

Times are rationals (Python floats are used only for exact small
arithmetic in the source paths modelled here).
-/

/-! ### Definitions -/



/-- A pending get request of the optimized store: the Python code attaches a
`priority` attribute to a fresh event; `reqId` numbers the requests in
creation order (standing in for the event object's identity). -/
structure GetReq where
  priority : Int
  reqId : Nat
deriving DecidableEq, Repr

/-- State of `VidigiPriorityStore`: an item list, a priority-sorted get-request
queue, a FIFO put-request queue (each pending put holds its item), a log of
grants `(reqId, item)` made by directly succeeding a queued get event, and the
counter for request identities.  `capacity = none` models `float(inf)`, the
default. -/
structure VidigiPriorityStore (α : Type) where
  capacity : Option Nat
  items : List α
  getQueue : List GetReq
  putQueue : List α
  granted : List (Nat × α)
  nextId : Nat
deriving DecidableEq, Repr

/-- `len(self.items) < self.capacity` with `capacity = none` as infinity. -/
def underCapacity (n : Nat) : Option Nat → Bool
  | none => true
  | some k => n < k

/-- The insertion loop of `VidigiPriorityStore.get`: scan for the first queued
request with a strictly larger priority value and insert before it, else
append (stable for equal priorities). -/
def insertReq (r : GetReq) : List GetReq → List GetReq
  | [] => [r]
  | q :: qs => if r.priority < q.priority then r :: q :: qs else q :: insertReq r qs

/-- `VidigiPriorityStore._process_put_queue`: if a put request is waiting and
there is capacity, append its item to the items list and succeed it. -/
def VidigiPriorityStore.processPutQueue (s : VidigiPriorityStore α) : VidigiPriorityStore α :=
  match s.putQueue with
  | it :: rest =>
    if underCapacity s.items.length s.capacity then
      { s with putQueue := rest, items := s.items ++ [it] }
    else s
  | [] => s

/-- `VidigiPriorityStore.get(priority)`: pop an item immediately when one is
available; otherwise queue a new request at its sorted position and then
process any waiting put requests.  The value handed to an immediate caller is
not tracked; only the store state matters for the claims. -/
def VidigiPriorityStore.getOp (s : VidigiPriorityStore α) (priority : Int) :
    VidigiPriorityStore α :=
  match s.items with
  | _ :: rest => { s with items := rest }
  | [] =>
    let s' := { s with
      getQueue := insertReq ⟨priority, s.nextId⟩ s.getQueue,
      nextId := s.nextId + 1 }
    s'.processPutQueue

/-- `VidigiPriorityStore.put(item)`: with capacity left, either complete the
front (highest-priority) pending get directly with the item, or bank the item;
at capacity, queue a pending put holding the item. -/
def VidigiPriorityStore.putOp (s : VidigiPriorityStore α) (item : α) :
    VidigiPriorityStore α :=
  if underCapacity s.items.length s.capacity then
    match s.getQueue with
    | r :: rest => { s with getQueue := rest, granted := (r.reqId, item) :: s.granted }
    | [] => { s with items := s.items ++ [item] }
  else { s with putQueue := s.putQueue ++ [item] }

/-- `VidigiPriorityStore.return_item(item)`: complete the front pending get
directly with the item, else bank the item (no capacity check in the source). -/
def VidigiPriorityStore.returnItem (s : VidigiPriorityStore α) (item : α) :
    VidigiPriorityStore α :=
  match s.getQueue with
  | r :: rest => { s with getQueue := rest, granted := (r.reqId, item) :: s.granted }
  | [] => { s with items := s.items ++ [item] }

/-- The empty store, as built by `__init__` (before any `populate`). -/
def VidigiPriorityStore.init (cap : Option Nat) : VidigiPriorityStore α :=
  ⟨cap, [], [], [], [], 0⟩

/-- The operations a client can perform on the optimized store. -/
inductive POp (α : Type) where
  | get (priority : Int)
  | put (item : α)
  | ret (item : α)
  | ppq
deriving DecidableEq, Repr

def VidigiPriorityStore.applyOp (s : VidigiPriorityStore α) : POp α → VidigiPriorityStore α
  | .get p => s.getOp p
  | .put it => s.putOp it
  | .ret it => s.returnItem it
  | .ppq => s.processPutQueue

def VidigiPriorityStore.applyOps (s : VidigiPriorityStore α) (ops : List (POp α)) :
    VidigiPriorityStore α :=
  ops.foldl VidigiPriorityStore.applyOp s

/-- Default priority of `VidigiPriorityStore.get` / `request` (utils.py line 448/461). -/
def VidigiPriorityStore.defaultPriority : Int := 0

/-- A legacy priority get request.  The constructor records `priority`
(default 999), the request time `resource._env.now`, and the `preempt` flag
(default true); its sort key is the tuple `(priority, time, not preempt)`. -/
structure PriorityGetLegacy where
  priority : Int
  time : Rat
  preempt : Bool
deriving DecidableEq, Repr

/-- Default priority of a legacy get request (utils.py line 341). -/
def PriorityGetLegacy.defaultPriority : Int := 999

/-- `not self.preempt`, the third component of the sort key, with
False < True as 0 < 1. -/
def PriorityGetLegacy.notPreempt (r : PriorityGetLegacy) : Nat :=
  if r.preempt then 0 else 1

/-- Strict lexicographic order on the key `(priority, time, not preempt)`. -/
def keyLt (a b : PriorityGetLegacy) : Prop :=
  a.priority < b.priority ∨
    (a.priority = b.priority ∧
      (a.time < b.time ∨ (a.time = b.time ∧ a.notPreempt < b.notPreempt)))

/-- Non-strict lexicographic order on the key `(priority, time, not preempt)`. -/
def keyLe (a b : PriorityGetLegacy) : Prop :=
  a.priority < b.priority ∨
    (a.priority = b.priority ∧
      (a.time < b.time ∨ (a.time = b.time ∧ a.notPreempt ≤ b.notPreempt)))

instance : DecidablePred (fun p : PriorityGetLegacy × PriorityGetLegacy => keyLt p.1 p.2) :=
  fun _ => by unfold keyLt; infer_instance

instance (a b : PriorityGetLegacy) : Decidable (keyLt a b) := by
  unfold keyLt; infer_instance

instance (a b : PriorityGetLegacy) : Decidable (keyLe a b) := by
  unfold keyLe; infer_instance

/-- Stable sorted insertion: simpy's SortedQueue appends the new request and
re-sorts with Python's stable sort on `key`, which places the new request
after every queued request whose key is less than or equal to its own and
before the first strictly greater one. -/
def insertLegacy (r : PriorityGetLegacy) : List PriorityGetLegacy → List PriorityGetLegacy
  | [] => [r]
  | q :: qs => if keyLt r q then r :: q :: qs else q :: insertLegacy r qs

/-- The legacy store's get queue after a sequence of get requests, in request
order: each request is inserted at its stable sorted position.  Grants pop
from the front of this queue. -/
def buildLegacyQueue (rs : List PriorityGetLegacy) : List PriorityGetLegacy :=
  rs.foldl (fun acc r => insertLegacy r acc) []

/-- Priority-then-identity order on optimized get requests: strictly smaller
priority value, or equal priority and strictly earlier creation. -/
def reqLe (a b : GetReq) : Prop :=
  a.priority < b.priority ∨ (a.priority = b.priority ∧ a.reqId < b.reqId)

instance (a b : GetReq) : Decidable (reqLe a b) := by
  unfold reqLe; infer_instance

/-- Structural invariant of reachable optimized-store states: the get queue is
sorted by priority with equal-priority requests in creation order, and request
identities are below the creation counter. -/
def sortedState (s : VidigiPriorityStore α) : Prop :=
  s.getQueue.Pairwise reqLe ∧ ∀ q ∈ s.getQueue, q.reqId < s.nextId

/-- `VidigiStore` wraps a simpy Store: an item list plus the queue of put
events pending because the store is at capacity (`capacity = none` is the
unbounded default). -/
structure VidigiStore (α : Type) where
  capacity : Option Nat
  items : List α
  putQueue : List α
deriving DecidableEq, Repr

/-- `VidigiStore.put` delegates to `simpy.Store.put`: append the item when
under capacity, otherwise leave the put event queued with its item. -/
def VidigiStore.put (s : VidigiStore α) (item : α) : VidigiStore α :=
  if underCapacity s.items.length s.capacity then
    { s with items := s.items ++ [item] }
  else { s with putQueue := s.putQueue ++ [item] }

/-- Observable state of a get event at scope exit: `processed` is the event's
`processed` flag and `value` is `some v` exactly when `hasattr(event, "value")`
holds with value `v` (a simpy event only has a `value` once triggered). -/
structure GetEventState (α : Type) where
  processed : Bool
  value : Option α
deriving DecidableEq, Repr

/-- `_StoreRequest.__exit__`: if the get event has been processed and has a
value, put the item back into the store; always report False so exceptions
from the body are not suppressed.  The second component is the truth value
returned to the Python `with` machinery. -/
def StoreRequest.exitScope (g : GetEventState α) (s : VidigiStore α) :
    VidigiStore α × Bool :=
  match g.processed, g.value with
  | true, some v => (s.put v, false)
  | _, _ => (s, false)

/-- `_OptimizedStoreRequest.__exit__`: same guard, but the item is returned
through `VidigiPriorityStore.return_item`. -/
def OptimizedStoreRequest.exitScope (g : GetEventState α) (s : VidigiPriorityStore α) :
    VidigiPriorityStore α × Bool :=
  match g.processed, g.value with
  | true, some v => (s.returnItem v, false)
  | _, _ => (s, false)

/-- Number of copies of `v` held anywhere by a `VidigiStore` (banked items plus
items attached to pending put events). -/
def VidigiStore.heldCount [DecidableEq α] (s : VidigiStore α) (v : α) : Nat :=
  (s.items ++ s.putQueue).count v

/-- Number of copies of `v` delivered back by the optimized store: banked
items plus copies directly handed to completed get requests. -/
def VidigiPriorityStore.deliveredCount [DecidableEq α]
    (s : VidigiPriorityStore α) (v : α) : Nat :=
  s.items.count v + (s.granted.map Prod.snd).count v

def RECOGNIZED_EVENT_TYPES : List String :=
  ["arrival_departure", "resource_use", "resource_use_end", "queue"]

/-- The `BaseEvent` record as constructed in the claims: required entity,
event_type, event and time, optional pathway, run_number and resource_id.
(The optional textual `timestamp` field and its datetime parsing are an
independent validator not involved in any claim and are not modelled.) -/
structure BaseEvent where
  entity_id : Nat
  event_type : String
  event : String
  time : Rat
  pathway : Option String := none
  run_number : Option Int := none
  resource_id : Option Int := none
deriving DecidableEq, Repr

/-- Warning text of `warn_if_unrecognized_event_type`. -/
def unrecognizedWarning (v : String) : String :=
  "Unrecognized event_type " ++ v

/-- Warning text of `warn_if_missing_resource_id`. -/
def missingResourceIdWarning (etype : String) : String :=
  "resource_id is recommended for event_type " ++ etype ++ ", but was not provided."

/-- Error text of `validate_event_logic`. -/
def eventLogicError (ev : String) : String :=
  "When event_type is arrival_departure, event must be arrival or depart. Got " ++ ev

/-- Constructing a `BaseEvent`: the field validators
`warn_if_unrecognized_event_type` and `warn_if_missing_resource_id` only emit
non-fatal warnings, then the model validator `validate_event_logic` raises
when `event_type` is arrival_departure and `event` is neither arrival nor
depart.  On success, the record and the accumulated warnings are returned. -/
def BaseEvent.validate (e : BaseEvent) : Except String (BaseEvent × List String) :=
  let w1 := if e.event_type ∈ RECOGNIZED_EVENT_TYPES then []
            else [unrecognizedWarning e.event_type]
  let w2 := if (e.event_type = "resource_use" ∨ e.event_type = "resource_use_end")
               ∧ e.resource_id = none
            then [missingResourceIdWarning e.event_type] else []
  if e.event_type = "arrival_departure" ∧ e.event ≠ "arrival" ∧ e.event ≠ "depart" then
    .error (eventLogicError e.event)
  else
    .ok (e, w1 ++ w2)

/-- The parameter names accepted by `generate_animation_df` (prep.py lines
225-240); the function declares no variadic keyword parameter. -/
def generate_animation_df_params : List String :=
  ["full_entity_df", "event_position_df", "wrap_queues_at", "wrap_resources_at",
   "step_snapshot_max", "gap_between_entities", "gap_between_resources",
   "gap_between_rows", "time_col_name", "entity_col_name",
   "event_type_col_name", "event_col_name", "debug_mode",
   "custom_entity_icon_list"]

/-- The keyword-argument names `animate_activity_log` passes in its call to
`generate_animation_df` (animation.py lines 647-663). -/
def animate_activity_log_kwargs : List String :=
  ["full_entity_df", "event_position_df", "wrap_queues_at", "wrap_resources_at",
   "step_snapshot_max", "gap_between_entities", "gap_between_resources",
   "gap_between_resource_rows", "gap_between_queue_rows", "debug_mode",
   "custom_entity_icon_list", "time_col_name", "entity_col_name",
   "event_type_col_name", "event_col_name"]

/-- A Python call raises TypeError exactly when some keyword argument is not
among the callee's declared parameters (the callee has no `**kwargs`). -/
def callRaisesTypeError (params kwargs : List String) : Bool :=
  kwargs.any (fun k => !(params.contains k))

/-- Invariant used for the amended hand-off claim: with unbounded capacity the
put queue stays empty and an available item never coexists with a waiting get
request. -/
def handoffInvariant (s : VidigiPriorityStore α) : Prop :=
  s.capacity = none ∧ s.putQueue = [] ∧ (s.items = [] ∨ s.getQueue = [])

/-- One event-log row.  `entity` stands for the entity-identifier column,
`time` for the clock column; extra caller columns other than `resource_id`
play no role in the functions modelled. -/
structure LogRow where
  entity : Nat
  event_type : String
  event : String
  time : Rat
  resource_id : Option Int := none
deriving DecidableEq, Repr

/-- One row of the reshaped snapshot table: the entity's most recent event-log
row (with its original index), plus the bookkeeping columns rank, additional
and snapshot_time.  The max column is dropped by the source before output. -/
structure SnapRow where
  idx : Nat
  entity : Nat
  event_type : String
  event : String
  time : Rat
  resource_id : Option Int
  rank : Nat
  additional : Option Int
  snapshot_time : Nat
deriving DecidableEq, Repr

/-- Distinct entity identifiers, in first-appearance order. -/
def logEntities (log : List LogRow) : List Nat :=
  (log.map (fun r => r.entity)).dedup

/-- One cell of the pivot table `pivot_table(values=time, index=(entity,
event_type), columns=event)`: the mean (the default aggregation) of the times
of the matching rows, or NaN (none) when no row matches. -/
def cellMean (log : List LogRow) (e : Nat) (et ev : String) : Option Rat :=
  let ts := (log.filter
      (fun r => r.entity == e && r.event_type == et && r.event == ev)).map
      (fun r => r.time)
  if ts.isEmpty then none else some (ts.sum / (ts.length : Rat))

/-- Whether entity `e` is present at sampled time `t`: some pivot row of `e`
has arrival at or before `t` and depart at or after `t` or no depart (NaN
comparisons are false, so pivot rows with no arrival never qualify). -/
def entityPresentAt (log : List LogRow) (t : Rat) (e : Nat) : Bool :=
  (log.filter (fun r => r.entity == e)).any (fun r =>
    match cellMean log e r.event_type "arrival" with
    | some a =>
      decide (a ≤ t) &&
        (match cellMean log e r.event_type "depart" with
         | none => true
         | some d => decide (t ≤ d))
    | none => false)

/-- Whether the pivot table has a column for event name `ev`; when the log has
no arrival or no depart event at all, the column lookup raises KeyError and
the snapshot loop skips every sampled time. -/
def hasEventName (log : List LogRow) (ev : String) : Bool :=
  log.any (fun r => r.event == ev)

/-- Rows paired with their original dataframe index. -/
def indexedLog (log : List LogRow) : List (Nat × LogRow) :=
  log.enum

/-- `sort_values([time, index])` comparison. -/
def rowLeB (p q : Nat × LogRow) : Bool :=
  decide (p.2.time < q.2.time) || (p.2.time == q.2.time && decide (p.1 ≤ q.1))

def insertRowSorted (p : Nat × LogRow) : List (Nat × LogRow) → List (Nat × LogRow)
  | [] => [p]
  | q :: qs => if rowLeB p q then p :: q :: qs else q :: insertRowSorted p qs

def sortByTimeIdx (l : List (Nat × LogRow)) : List (Nat × LogRow) :=
  l.foldr insertRowSorted []

/-- `groupby(entity).tail(1)` on a frame in place: keep, for each entity, only
its last row in the current row order. -/
def keepLastPerEntity : List (Nat × LogRow) → List (Nat × LogRow)
  | [] => []
  | p :: ps =>
    if ps.any (fun q => q.2.entity == p.2.entity) then keepLastPerEntity ps
    else p :: keepLastPerEntity ps

/-- One snapshot (prep.py lines 100-192): entities present at time `t`, their
most recent event row at or before `t` (latest time, ties by original index),
ranked within each event group by original index.  The source then computes a
frame filtered to rank at most step_snapshot_max + 1 but binds it to an unused
variable (the suspected source of bug 53), so no row is actually excluded;
only the rank = step_snapshot_max + 1 row of each overflowing event group is
given an additional value of (group max rank) - rank and the rows are
re-concatenated with those overflow rows at the end. -/
def snapshotAt (log : List LogRow) (stepSnapshotMax : Nat) (t : Nat) : List SnapRow :=
  let presentEnts := (logEntities log).filter (fun e => entityPresentAt log (t : Rat) e)
  let cands := (indexedLog log).filter
    (fun p => presentEnts.contains p.2.entity && decide (p.2.time ≤ (t : Rat)))
  let latest := keepLastPerEntity (sortByTimeIdx cands)
  let withRank : List SnapRow := latest.map (fun p =>
    ⟨p.1, p.2.entity, p.2.event_type, p.2.event, p.2.time, p.2.resource_id,
      1 + ((latest.filter (fun q => q.2.event == p.2.event && q.1 < p.1)).length),
      none, t⟩)
  let maximumRows := (withRank.filter (fun q => q.rank == stepSnapshotMax + 1)).map
    (fun q =>
      let mx : Int := ((withRank.filter (fun q2 => q2.event == q.event)).length : Int)
      { q with additional := some (mx - (q.rank : Int)) })
  if maximumRows.isEmpty then withRank
  else (withRank.filter (fun q => q.rank != stepSnapshotMax + 1)) ++ maximumRows

/-- The sampled time units 0, stride, 2 stride, ... strictly below the
duration limit. -/
def sampledTimes (everyXTimeUnits limitDuration : Nat) : List Nat :=
  (List.range limitDuration).filter (fun t => t % everyXTimeUnits == 0)

/-- The row used for an entity's synthetic exit step: its last row after
sorting by (entity, time) — a row of maximal time; among equal times the
source's unstable sort leaves the choice unspecified and the model takes the
last one in frame order. -/
def lastRowForEntity (rows : List SnapRow) (e : Nat) : Option SnapRow :=
  (rows.filter (fun r => r.entity == e)).foldl
    (fun acc r =>
      match acc with
      | none => some r
      | some a => if decide (a.time ≤ r.time) then some r else some a) none

/-- The synthetic exit rows (prep.py lines 211-218): one per entity, a copy of
its last row with the time advanced by one stride and the event renamed. -/
def exitRows (full : List SnapRow) (everyXTimeUnits : Nat) : List SnapRow :=
  ((full.map (fun r => r.entity)).dedup).filterMap (fun e =>
    (lastRowForEntity full e).map (fun r =>
      { r with time := r.time + (everyXTimeUnits : Rat), event := "exit" }))

/-- `reshape_for_animations`: the per-snapshot frames for every sampled time,
followed by the exit rows.  When the log has no arrival event or no depart
event anywhere (every snapshot skipped on KeyError) or no time is sampled,
`pd.concat` of an empty list raises, modelled as none. -/
def reshape_for_animations (log : List LogRow)
    (everyXTimeUnits limitDuration stepSnapshotMax : Nat) : Option (List SnapRow) :=
  if hasEventName log "arrival" && hasEventName log "depart"
      && !(sampledTimes everyXTimeUnits limitDuration).isEmpty then
    let full := ((sampledTimes everyXTimeUnits limitDuration).map
      (snapshotAt log stepSnapshotMax)).flatten
    some (full ++ exitRows full everyXTimeUnits)
  else none

/-- One row of the event-position configuration. -/
structure EventPos where
  event : String
  x : Rat
  y : Rat
  label : String := ""
  resource : Option String := none
deriving DecidableEq, Repr

/-- One positioned output row: the snapshot columns plus the computed
x_final/y_final (none models NaN, for rows whose event has no configured
position or resource rows without a resource_id) and the icon column. -/
structure PosRow where
  entity : Nat
  event_type : String
  event : String
  time : Rat
  resource_id : Option Int
  rank : Nat
  additional : Option Int
  snapshot_time : Nat
  x_final : Option Rat
  y_final : Option Rat
  icon : String
deriving DecidableEq, Repr

/-- The left merge with the event-position table: the configured anchor of an
event name (positions are declared once per event). -/
def lookupEventPos (eventPos : List EventPos) (ev : String) : Option (Rat × Rat) :=
  (eventPos.find? (fun p => p.event == ev)).map (fun p => (p.x, p.y))

/-- Queue placement (prep.py lines 332-352), for a configured wrap threshold:
x_final = x - rank * gap, then the row-wrapping shift with
row = floor((rank - 1) / wrap), then the overflow-marker nudge applied to the
rank = step_snapshot_max + 1 row. -/
def queuePos (wrapQueuesAt : Rat) (stepSnapshotMax : Nat)
    (gapBetweenEntities gapBetweenRows : Rat) (x y : Rat) (rank : Nat) : Rat × Rat :=
  let xf := x - (rank : Rat) * gapBetweenEntities
  let row : Int := Rat.floor (((rank : Rat) - 1) / wrapQueuesAt)
  let xf2 := xf + wrapQueuesAt * (row : Rat) * gapBetweenEntities + gapBetweenEntities
  let yf := y + (row : Rat) * gapBetweenRows
  let xf3 := if (rank : Rat) ≠ (stepSnapshotMax : Rat) + 1 then xf2
             else xf2 - gapBetweenEntities * (wrapQueuesAt / 2)
  (xf3, yf)

/-- Resource placement (prep.py lines 310-326):
x_final = x - resource_id * gap, and the same row-wrapping shift keyed on
resource_id when a resource wrap threshold is configured. -/
def resourcePos (wrapResourcesAt : Option Rat)
    (gapBetweenResources gapBetweenRows : Rat) (x y : Rat) (rid : Int) : Rat × Rat :=
  let xf := x - (rid : Rat) * gapBetweenResources
  match wrapResourcesAt with
  | none => (xf, y)
  | some w =>
    let row : Int := Rat.floor (((rid : Rat) - 1) / w)
    (xf + w * (row : Rat) * gapBetweenResources + gapBetweenResources,
     y + (row : Rat) * gapBetweenRows)

/-- The default 70-entry entity icon list (prep.py lines 374-390). -/
def default_entity_icon_list : List String :=
  ["🧔🏼", "👨🏿‍🦯", "👨🏻‍🦰", "🧑🏻", "👩🏿‍🦱",
   "🤰", "👳🏽", "👩🏼‍🦳", "👨🏿‍🦳", "👩🏼‍🦱",
   "🧍🏽‍♀️", "👨🏼‍🔬", "👩🏻‍🦰", "🧕🏿", "👨🏼‍🦽",
   "👴🏾", "👨🏼‍🦱", "👷🏾", "👧🏿", "🙎🏼‍♂️",
   "👩🏻‍🦲", "🧔🏾", "🧕🏻", "👨🏾‍🎓", "👨🏾‍🦲",
   "👨🏿‍🦰", "🙍🏼‍♂️", "🙋🏾‍♀️", "👩🏻‍🔧", "👨🏿‍🦽",
   "👩🏼‍🦳", "👩🏼‍🦼", "🙋🏽‍♂️", "👩🏿‍🎓", "👴🏻",
   "🤷🏻‍♀️", "👶🏾", "👨🏻‍✈️", "🙎🏿‍♀️", "👶🏻",
   "👴🏿", "👨🏻‍🦳", "👩🏽", "👩🏽‍🦳", "🧍🏼‍♂️",
   "👩🏽‍🎓", "👱🏻‍♀️", "👲🏼", "🧕🏾", "👨🏻‍🦯",
   "🧔🏿", "👳🏿", "🤦🏻‍♂️", "👩🏽‍🦰", "👨🏼‍✈️",
   "👨🏾‍🦲", "🧍🏾‍♂️", "👧🏼", "🤷🏿‍♂️", "👨🏿‍🔧",
   "👱🏾‍♂️", "👨🏼‍🎓", "👵🏼", "🤵🏿", "🤦🏾‍♀️",
   "👳🏻", "🙋🏼‍♂️", "👩🏻‍🎓", "👩🏼‍🌾", "👩🏾‍🔬",
   "👩🏿‍✈️", "🎅🏼", "👵🏿", "🤵🏻", "🤰"]

/-- Python string formatting of an integer with format spec 5d: right-aligned
in a field of width 5, padded with spaces. -/
def pyFormat5d (n : Int) : String :=
  let s := toString n
  if s.length < 5 then String.mk (List.replicate (5 - s.length) ' ') ++ s else s

/-- The icon text given to an overflow row (prep.py line 409). -/
def overflowIconLabel (n : Int) : String :=
  "+ " ++ pyFormat5d n ++ " more"

/-- The label the specification describes for an overflow row: the additional
count zero-padded to 5 digits.  This definition follows the words of the
spec, for comparison with `overflowIconLabel`, which follows the source. -/
def specZeroPaddedLabel (n : Int) : String :=
  let s := toString n
  "+ " ++ (if s.length < 5 then String.mk (List.replicate (5 - s.length) '0') ++ s else s)
    ++ " more"

def insertNat (n : Nat) : List Nat → List Nat
  | [] => [n]
  | m :: ms => if n ≤ m then n :: m :: ms else m :: insertNat n ms

def sortNats (l : List Nat) : List Nat :=
  l.foldr insertNat []

/-- `generate_animation_df`: recompute rank as the occurrence order within
each (event, snapshot_time) group, merge event positions, place queue rows and
resource rows, assign icons by cycling the icon list over the sorted distinct
entities, and replace the icon of every overflow row (additional not NaN) with
the `+ NNNNN more` text.  Rows of other event types (arrival_departure, exit
rows and so on) are dropped, as in the source, which concatenates only the
queue frame and the resource frame.  The source raises on two paths modelled
as none: with wrap_queues_at None the overflow nudge evaluates None / 2
(TypeError), and with a resource wrap threshold but no resource_use rows the
empty resource frame has no x_final column (KeyError). -/
def generate_animation_df (rows : List SnapRow) (eventPos : List EventPos)
    (wrapQueuesAt wrapResourcesAt : Option Rat) (stepSnapshotMax : Nat)
    (gapBetweenEntities gapBetweenResources gapBetweenRows : Rat)
    (customEntityIconList : Option (List String)) : Option (List PosRow) :=
  let ranked := rows.enum.map (fun (p : Nat × SnapRow) =>
    { p.2 with rank := 1 + ((rows.take p.1).filter
        (fun (q : SnapRow) =>
          q.event == p.2.event && q.snapshot_time == p.2.snapshot_time)).length })
  let resourceUse := ranked.filter (fun r => r.event_type == "resource_use")
  let queues := ranked.filter (fun r => r.event_type == "queue")
  match wrapQueuesAt with
  | none => none
  | some wq =>
    if wrapResourcesAt.isSome && resourceUse.isEmpty then none
    else
      let qRows : List PosRow := queues.map (fun r =>
        let pos := (lookupEventPos eventPos r.event).map (fun xy =>
          queuePos wq stepSnapshotMax gapBetweenEntities gapBetweenRows xy.1 xy.2 r.rank)
        ⟨r.entity, r.event_type, r.event, r.time, r.resource_id, r.rank, r.additional,
         r.snapshot_time, pos.map Prod.fst, pos.map Prod.snd, ""⟩)
      let rRows : List PosRow := resourceUse.map (fun r =>
        let pos := (lookupEventPos eventPos r.event).bind (fun xy =>
          r.resource_id.map (fun rid =>
            resourcePos wrapResourcesAt gapBetweenResources gapBetweenRows xy.1 xy.2 rid))
        ⟨r.entity, r.event_type, r.event, r.time, r.resource_id, r.rank, r.additional,
         r.snapshot_time, pos.map Prod.fst, pos.map Prod.snd, ""⟩)
      let merged := qRows ++ rRows
      let iconList := customEntityIconList.getD default_entity_icon_list
      let ents := sortNats ((rows.map (fun r => r.entity)).dedup)
      let withIcon := merged.map (fun p =>
        { p with icon := iconList.getD ((ents.indexOf p.entity) % iconList.length) "" })
      some ((withIcon.filter (fun p => p.additional.isNone))
        ++ ((withIcon.filter (fun p => !p.additional.isNone)).map (fun p =>
              match p.additional with
              | some n => { p with icon := overflowIconLabel n }
              | none => p)))

/-- Claim C6 input: one entity arriving at time 0 and departing at time 25. -/
def c6log : List LogRow :=
  [⟨1, "arrival_departure", "arrival", 0, none⟩,
   ⟨1, "arrival_departure", "depart", 25, none⟩]

/-- Claim C2 input: 55 entities all arriving at time 0 (so all present, with
the same most recent event, at the time-0 snapshot) and departing at 100. -/
def c2log : List LogRow :=
  ((List.range 55).map
    (fun i => (⟨i + 1, "arrival_departure", "arrival", 0, none⟩ : LogRow)))
  ++ ((List.range 55).map
    (fun i => (⟨i + 1, "arrival_departure", "depart", 100, none⟩ : LogRow)))

/-- The (event = arrival, snapshot_time = 0) group of the reshaped C2 log. -/
def c2group : List SnapRow :=
  ((reshape_for_animations c2log 1 1 50).getD []).filter
    (fun r => r.event == "arrival" && r.snapshot_time == 0)

/-- Claim C9 input: a reshaped snapshot with one ordinary queue row and one
overflow row carrying additional = 4. -/
def c9rows : List SnapRow :=
  [⟨0, 1, "queue", "wait", 0, none, 1, none, 0⟩,
   ⟨1, 2, "queue", "wait", 0, none, 51, some 4, 0⟩]

def c9eventPositions : List EventPos :=
  [⟨"wait", 100, 100, "Waiting", none⟩]

/-- The positioned output of `generate_animation_df` on the C9 input. -/
def c9out : List PosRow :=
  [⟨1, "queue", "wait", 0, none, 1, none, 0, some 100, some 100, "🧔🏼"⟩,
   ⟨2, "queue", "wait", 0, none, 2, some 4, 0, some 90, some 100,
    overflowIconLabel 4⟩]

attribute [local semireducible] Rat.add Rat.sub Rat.mul Rat.inv

set_option maxRecDepth 10000

/-! ### Lemmas and claim theorems -/

theorem mem_insertReq {r x : GetReq} {l : List GetReq} (h : x ∈ insertReq r l) :
    x = r ∨ x ∈ l := by
  induction l with
  | nil => simpa [insertReq] using h
  | cons q qs ih =>
    by_cases hc : r.priority < q.priority
    · simp only [insertReq, if_pos hc, List.mem_cons] at h
      rcases h with h | h | h
      · exact Or.inl h
      · exact Or.inr (List.mem_cons.mpr (Or.inl h))
      · exact Or.inr (List.mem_cons.mpr (Or.inr h))
    · simp only [insertReq, if_neg hc, List.mem_cons] at h
      rcases h with h | h
      · exact Or.inr (List.mem_cons.mpr (Or.inl h))
      · rcases ih h with h' | h'
        · exact Or.inl h'
        · exact Or.inr (List.mem_cons.mpr (Or.inr h'))

theorem reqLe_priority_le {a b : GetReq} (h : reqLe a b) : a.priority ≤ b.priority := by
  rcases h with h | ⟨h, _⟩
  · exact le_of_lt h
  · exact le_of_eq h

theorem insertReq_pairwise {r : GetReq} {l : List GetReq}
    (hs : l.Pairwise reqLe) (hid : ∀ q ∈ l, q.reqId < r.reqId) :
    (insertReq r l).Pairwise reqLe := by
  induction l with
  | nil => simp [insertReq]
  | cons q qs ih =>
    rw [List.pairwise_cons] at hs
    by_cases hc : r.priority < q.priority
    · rw [insertReq, if_pos hc]
      refine List.pairwise_cons.mpr ⟨?_, List.pairwise_cons.mpr hs⟩
      intro x hx
      rcases List.mem_cons.mp hx with rfl | hx
      · exact Or.inl hc
      · exact Or.inl (lt_of_lt_of_le hc (reqLe_priority_le (hs.1 x hx)))
    · rw [insertReq, if_neg hc]
      refine List.pairwise_cons.mpr
        ⟨?_, ih hs.2 (fun x hx => hid x (List.mem_cons_of_mem _ hx))⟩
      intro x hx
      rcases mem_insertReq hx with rfl | hx
      · rcases eq_or_lt_of_le (not_lt.mp hc) with heq | hlt'
        · exact Or.inr ⟨heq, hid q (List.mem_cons_self q qs)⟩
        · exact Or.inl hlt'
      · exact hs.1 x hx

theorem mem_insertLegacy {r x : PriorityGetLegacy} {l : List PriorityGetLegacy}
    (h : x ∈ insertLegacy r l) : x = r ∨ x ∈ l := by
  induction l with
  | nil => simpa [insertLegacy] using h
  | cons q qs ih =>
    by_cases hc : keyLt r q
    · simp only [insertLegacy, if_pos hc, List.mem_cons] at h
      rcases h with h | h | h
      · exact Or.inl h
      · exact Or.inr (List.mem_cons.mpr (Or.inl h))
      · exact Or.inr (List.mem_cons.mpr (Or.inr h))
    · simp only [insertLegacy, if_neg hc, List.mem_cons] at h
      rcases h with h | h
      · exact Or.inr (List.mem_cons.mpr (Or.inl h))
      · rcases ih h with h' | h'
        · exact Or.inl h'
        · exact Or.inr (List.mem_cons.mpr (Or.inr h'))

theorem not_keyLt_le {a b : PriorityGetLegacy} (h : ¬ keyLt a b) : keyLe b a := by
  unfold keyLt at h
  unfold keyLe
  push_neg at h
  obtain ⟨h1, h2⟩ := h
  rcases eq_or_lt_of_le h1 with heq | hlt
  · refine Or.inr ⟨heq, ?_⟩
    obtain ⟨ht, ht2⟩ := h2 heq.symm
    rcases eq_or_lt_of_le ht with hteq | htlt
    · exact Or.inr ⟨hteq, ht2 hteq.symm⟩
    · exact Or.inl htlt
  · exact Or.inl hlt

theorem keyLt_le {a b : PriorityGetLegacy} (h : keyLt a b) : keyLe a b := by
  unfold keyLt at h
  unfold keyLe
  rcases h with h | ⟨h1, h2⟩
  · exact Or.inl h
  · refine Or.inr ⟨h1, ?_⟩
    rcases h2 with h2 | ⟨h2, h3⟩
    · exact Or.inl h2
    · exact Or.inr ⟨h2, le_of_lt h3⟩

theorem keyLe_trans {a b c : PriorityGetLegacy} (h1 : keyLe a b) (h2 : keyLe b c) :
    keyLe a c := by
  unfold keyLe at h1 h2 ⊢
  rcases h1 with h1 | ⟨e1, h1⟩ <;> rcases h2 with h2 | ⟨e2, h2⟩
  · exact Or.inl (lt_trans h1 h2)
  · exact Or.inl (lt_of_lt_of_eq h1 e2)
  · exact Or.inl (lt_of_eq_of_lt e1 h2)
  · refine Or.inr ⟨e1.trans e2, ?_⟩
    rcases h1 with h1 | ⟨f1, h1⟩ <;> rcases h2 with h2 | ⟨f2, h2⟩
    · exact Or.inl (lt_trans h1 h2)
    · exact Or.inl (lt_of_lt_of_eq h1 f2)
    · exact Or.inl (lt_of_eq_of_lt f1 h2)
    · exact Or.inr ⟨f1.trans f2, le_trans h1 h2⟩

theorem insertLegacy_pairwise {r : PriorityGetLegacy} {l : List PriorityGetLegacy}
    (hs : l.Pairwise keyLe) : (insertLegacy r l).Pairwise keyLe := by
  induction l with
  | nil => simp [insertLegacy]
  | cons q qs ih =>
    rw [List.pairwise_cons] at hs
    by_cases hc : keyLt r q
    · rw [insertLegacy, if_pos hc]
      refine List.pairwise_cons.mpr ⟨?_, List.pairwise_cons.mpr hs⟩
      intro x hx
      rcases List.mem_cons.mp hx with rfl | hx
      · exact keyLt_le hc
      · exact keyLe_trans (keyLt_le hc) (hs.1 x hx)
    · rw [insertLegacy, if_neg hc]
      refine List.pairwise_cons.mpr ⟨?_, ih hs.2⟩
      intro x hx
      rcases mem_insertLegacy hx with rfl | hx
      · exact not_keyLt_le hc
      · exact hs.1 x hx

theorem buildLegacyQueue_pairwise (rs : List PriorityGetLegacy) :
    (buildLegacyQueue rs).Pairwise keyLe := by
  unfold buildLegacyQueue
  have key : ∀ acc : List PriorityGetLegacy, acc.Pairwise keyLe →
      (rs.foldl (fun acc r => insertLegacy r acc) acc).Pairwise keyLe := by
    induction rs with
    | nil => intro acc h; exact h
    | cons r rs ih =>
      intro acc h
      exact ih _ (insertLegacy_pairwise h)
  exact key [] (by simp)

theorem processPutQueue_getQueue (s : VidigiPriorityStore α) :
    s.processPutQueue.getQueue = s.getQueue := by
  unfold VidigiPriorityStore.processPutQueue
  rcases s.putQueue with _ | ⟨it, rest⟩
  · rfl
  · dsimp only
    split <;> rfl

theorem processPutQueue_nextId (s : VidigiPriorityStore α) :
    s.processPutQueue.nextId = s.nextId := by
  unfold VidigiPriorityStore.processPutQueue
  rcases s.putQueue with _ | ⟨it, rest⟩
  · rfl
  · dsimp only
    split <;> rfl

theorem sortedState_applyOp {s : VidigiPriorityStore α} (h : sortedState s) (op : POp α) :
    sortedState (s.applyOp op) := by
  obtain ⟨hp, hb⟩ := h
  cases op with
  | get p =>
    show sortedState (s.getOp p)
    unfold VidigiPriorityStore.getOp
    rcases s.items with _ | ⟨x, rest⟩
    · dsimp only
      refine ⟨?_, ?_⟩
      · rw [processPutQueue_getQueue]
        exact insertReq_pairwise hp hb
      · rw [processPutQueue_getQueue, processPutQueue_nextId]
        intro q hq
        rcases mem_insertReq hq with rfl | hq
        · simp
        · exact Nat.lt_succ_of_lt (hb q hq)
    · exact ⟨hp, hb⟩
  | put it =>
    show sortedState (s.putOp it)
    unfold VidigiPriorityStore.putOp
    split
    · rcases hg : s.getQueue with _ | ⟨r, rest⟩
      · rw [hg] at hp hb
        exact ⟨hp, hb⟩
      · rw [hg] at hp hb
        exact ⟨(List.pairwise_cons.mp hp).2, fun q hq => hb q (List.mem_cons_of_mem _ hq)⟩
    · exact ⟨hp, hb⟩
  | ret it =>
    show sortedState (s.returnItem it)
    unfold VidigiPriorityStore.returnItem
    rcases hg : s.getQueue with _ | ⟨r, rest⟩
    · rw [hg] at hp hb
      exact ⟨hp, hb⟩
    · rw [hg] at hp hb
      exact ⟨(List.pairwise_cons.mp hp).2, fun q hq => hb q (List.mem_cons_of_mem _ hq)⟩
  | ppq =>
    show sortedState s.processPutQueue
    refine ⟨?_, ?_⟩
    · rw [processPutQueue_getQueue]; exact hp
    · rw [processPutQueue_getQueue, processPutQueue_nextId]; exact hb

theorem sortedState_applyOps (cap : Option Nat) (ops : List (POp α)) :
    sortedState ((VidigiPriorityStore.init cap (α := α)).applyOps ops) := by
  unfold VidigiPriorityStore.applyOps
  have key : ∀ s : VidigiPriorityStore α, sortedState s →
      sortedState (ops.foldl VidigiPriorityStore.applyOp s) := by
    induction ops with
    | nil => intro s h; exact h
    | cons op ops ih => intro s h; exact ih _ (sortedState_applyOp h op)
  exact key _ ⟨by simp [VidigiPriorityStore.init], by simp [VidigiPriorityStore.init]⟩

theorem processPutQueue_of_putQueue_nil (s : VidigiPriorityStore α)
    (h : s.putQueue = []) : s.processPutQueue = s := by
  unfold VidigiPriorityStore.processPutQueue
  rw [h]

theorem put_heldCount [DecidableEq α] (s : VidigiStore α) (v : α) :
    (s.put v).heldCount v = s.heldCount v + 1 := by
  unfold VidigiStore.put VidigiStore.heldCount
  split
  · simp [List.count_append]
    omega
  · simp [List.count_append]
    omega

theorem returnItem_deliveredCount [DecidableEq α] (s : VidigiPriorityStore α) (v : α) :
    (s.returnItem v).deliveredCount v = s.deliveredCount v + 1 := by
  unfold VidigiPriorityStore.returnItem VidigiPriorityStore.deliveredCount
  rcases hg : s.getQueue with _ | ⟨r, rest⟩
  · dsimp only
    simp [List.count_append]
    omega
  · dsimp only
    simp [List.count_cons]
    omega

theorem handoffInvariant_applyOp {s : VidigiPriorityStore α}
    (h : handoffInvariant s) (op : POp α) : handoffInvariant (s.applyOp op) := by
  obtain ⟨hcap, hputq, hinv⟩ := h
  cases op with
  | get p =>
    show handoffInvariant (s.getOp p)
    unfold VidigiPriorityStore.getOp
    rcases hi : s.items with _ | ⟨x, rest⟩
    · dsimp only
      rw [processPutQueue_of_putQueue_nil _ (by exact hputq)]
      exact ⟨hcap, hputq, Or.inl rfl⟩
    · rw [hi] at hinv
      rcases hinv with hinv | hinv
      · cases hinv
      · exact ⟨hcap, hputq, Or.inr hinv⟩
  | put it =>
    show handoffInvariant (s.putOp it)
    unfold VidigiPriorityStore.putOp
    rw [hcap]
    simp only [underCapacity]
    rw [if_pos trivial]
    rcases hg : s.getQueue with _ | ⟨r, rest⟩
    · exact ⟨rfl, hputq, Or.inr rfl⟩
    · rw [hg] at hinv
      rcases hinv with hinv | hinv
      · exact ⟨rfl, hputq, Or.inl hinv⟩
      · cases hinv
  | ret it =>
    show handoffInvariant (s.returnItem it)
    unfold VidigiPriorityStore.returnItem
    rcases hg : s.getQueue with _ | ⟨r, rest⟩
    · exact ⟨hcap, hputq, Or.inr rfl⟩
    · rw [hg] at hinv
      rcases hinv with hinv | hinv
      · exact ⟨hcap, hputq, Or.inl hinv⟩
      · cases hinv
  | ppq =>
    show handoffInvariant s.processPutQueue
    rw [processPutQueue_of_putQueue_nil _ hputq]
    exact ⟨hcap, hputq, hinv⟩

theorem handoffInvariant_applyOps (ops : List (POp α)) :
    handoffInvariant ((VidigiPriorityStore.init none (α := α)).applyOps ops) := by
  unfold VidigiPriorityStore.applyOps
  have key : ∀ s : VidigiPriorityStore α, handoffInvariant s →
      handoffInvariant (ops.foldl VidigiPriorityStore.applyOp s) := by
    induction ops with
    | nil => intro s h; exact h
    | cons op ops ih => intro s h; exact ih _ (handoffInvariant_applyOp h op)
  exact key _ ⟨rfl, rfl, Or.inl rfl⟩

/-- C1: the claim says `animate_activity_log` chains the three pipeline stages
and returns the finished figure without raising.  In the source, the call it
makes to `generate_animation_df` passes the keyword arguments
gap_between_queue_rows and gap_between_resource_rows, which are not parameters
of `generate_animation_df` (whose only row-gap parameter is gap_between_rows),
so under Python call semantics every invocation raises TypeError before the
second stage runs. -/
theorem claim_C1_kwarg_mismatch :
    callRaisesTypeError generate_animation_df_params animate_activity_log_kwargs = true
    ∧ "gap_between_queue_rows" ∈ animate_activity_log_kwargs
    ∧ "gap_between_queue_rows" ∉ generate_animation_df_params
    ∧ "gap_between_resource_rows" ∈ animate_activity_log_kwargs
    ∧ "gap_between_resource_rows" ∉ generate_animation_df_params := by
  decide

/-- C3 counterexample: starting from an empty optimized store of capacity 1,
the sequence put 10, put 20, get, get leaves both a banked item and a waiting
get request: the second put is queued at capacity, the first get consumes the
banked item, and the second get queues itself and then triggers
`_process_put_queue`, which banks the queued item instead of granting it to
the waiting request. -/
theorem claim_C3_counterexample :
    ((VidigiPriorityStore.init (some 1) (α := Nat)).applyOps
        [POp.put 10, POp.put 20, POp.get 0, POp.get 0]).items ≠ []
    ∧ ((VidigiPriorityStore.init (some 1) (α := Nat)).applyOps
        [POp.put 10, POp.put 20, POp.get 0, POp.get 0]).getQueue ≠ [] := by
  decide

/-- C3 amended: for the optimized priority store with unbounded capacity (the
default, under which the put queue is never used), after any sequence of get,
put, return_item and _process_put_queue operations from the empty store, at
most one of the items list and the get-request queue is non-empty. -/
theorem claim_C3_amended_invariant (ops : List (POp Nat)) :
    ((VidigiPriorityStore.init none (α := Nat)).applyOps ops).items = []
    ∨ ((VidigiPriorityStore.init none (α := Nat)).applyOps ops).getQueue = [] :=
  (handoffInvariant_applyOps ops).2.2

/-- C4: in any reachable optimized-store state whose get queue is non-empty,
`return_item` grants exactly the front request, and that request has the
minimum priority value of all pending requests, with equal-priority ties going
to the earlier-created request; and in the legacy store queue (stable sorted
insertion on the key (priority, time, not preempt)), the front request has
minimum priority with equal-priority ties going to the earlier request time. -/
theorem claim_C4_priority_grant
    (cap : Option Nat) (ops : List (POp Nat)) (item : Nat)
    (r : GetReq) (rest : List GetReq)
    (hq : ((VidigiPriorityStore.init cap (α := Nat)).applyOps ops).getQueue = r :: rest)
    (lrs : List PriorityGetLegacy) (lr : PriorityGetLegacy)
    (lrest : List PriorityGetLegacy)
    (hl : buildLegacyQueue lrs = lr :: lrest) :
    (((VidigiPriorityStore.init cap (α := Nat)).applyOps ops).returnItem item).granted
        = (r.reqId, item)
            :: ((VidigiPriorityStore.init cap (α := Nat)).applyOps ops).granted
    ∧ (∀ q ∈ rest, r.priority ≤ q.priority ∧ (r.priority = q.priority → r.reqId < q.reqId))
    ∧ (∀ q ∈ lrest, lr.priority ≤ q.priority ∧ (lr.priority = q.priority → lr.time ≤ q.time)) := by
  refine ⟨?_, ?_, ?_⟩
  · unfold VidigiPriorityStore.returnItem
    rw [hq]
  · have hs1 := (sortedState_applyOps (α := Nat) cap ops).1
    rw [hq] at hs1
    have hp := (List.pairwise_cons.mp hs1).1
    intro q hmem
    rcases hp q hmem with h | ⟨h1, h2⟩
    · exact ⟨le_of_lt h, fun he => absurd he (ne_of_lt h)⟩
    · exact ⟨le_of_eq h1, fun _ => h2⟩
  · have hs := buildLegacyQueue_pairwise lrs
    rw [hl] at hs
    have hp := (List.pairwise_cons.mp hs).1
    intro q hmem
    have hk := hp q hmem
    unfold keyLe at hk
    rcases hk with h | ⟨h1, h2⟩
    · exact ⟨le_of_lt h, fun he => absurd he (ne_of_lt h)⟩
    · refine ⟨le_of_eq h1, fun _ => ?_⟩
      rcases h2 with h2 | ⟨h2, _⟩
      · exact le_of_lt h2
      · exact le_of_eq h2

/-- C4 witness: three requests with priorities 2, 1, 2 are queued; the front
is the priority-1 request, and the two priority-2 requests keep arrival order;
in the legacy store a default-999 request at time 0 and a priority-5 request
at time 1 sort with the priority-5 request first. -/
theorem claim_C4_witness :
    (((VidigiPriorityStore.init none (α := Nat)).applyOps
        [POp.get 2, POp.get 1, POp.get 2]).returnItem 7).granted
        = (1, 7)
            :: ((VidigiPriorityStore.init none (α := Nat)).applyOps
                [POp.get 2, POp.get 1, POp.get 2]).granted
    ∧ (∀ q ∈ [(⟨2, 0⟩ : GetReq), ⟨2, 2⟩],
        (1 : Int) ≤ q.priority ∧ ((1 : Int) = q.priority → 1 < q.reqId))
    ∧ (∀ q ∈ [(⟨999, 0, true⟩ : PriorityGetLegacy)],
        (5 : Int) ≤ q.priority ∧ ((5 : Int) = q.priority → (1 : Rat) ≤ q.time)) :=
  claim_C4_priority_grant none [POp.get 2, POp.get 1, POp.get 2] 7
    ⟨1, 1⟩ [⟨2, 0⟩, ⟨2, 2⟩] (by decide)
    [⟨999, 0, true⟩, ⟨5, 1, true⟩] ⟨5, 1, true⟩ [⟨999, 0, true⟩] (by decide)

/-- C5: on scope exit of a scoped acquisition (FIFO store or optimized
priority store), exceptions are never suppressed, and the obtained item is
handed back exactly once precisely when the get event was processed with a
value; an acquisition that never completed leaves the store untouched. -/
theorem claim_C5_scope_exit (g : GetEventState Nat) (vs : VidigiStore Nat)
    (ps : VidigiPriorityStore Nat) :
    (StoreRequest.exitScope g vs).2 = false
    ∧ (OptimizedStoreRequest.exitScope g ps).2 = false
    ∧ (∀ v, g.processed = true → g.value = some v →
        (StoreRequest.exitScope g vs).1.heldCount v = vs.heldCount v + 1
        ∧ (OptimizedStoreRequest.exitScope g ps).1.deliveredCount v
            = ps.deliveredCount v + 1)
    ∧ (g.processed = false ∨ g.value = none →
        (StoreRequest.exitScope g vs).1 = vs
        ∧ (OptimizedStoreRequest.exitScope g ps).1 = ps) := by
  obtain ⟨p, val⟩ := g
  refine ⟨?_, ?_, ?_, ?_⟩
  · cases p <;> cases val <;> rfl
  · cases p <;> cases val <;> rfl
  · intro v hp hv
    cases p
    · cases hp
    · cases val with
      | none => cases hv
      | some w =>
        simp only [GetEventState.value, Option.some.injEq] at hv
        subst hv
        exact ⟨put_heldCount vs w, returnItem_deliveredCount ps w⟩
  · intro h
    cases p
    · exact ⟨rfl, rfl⟩
    · cases val with
      | none => exact ⟨rfl, rfl⟩
      | some w =>
        rcases h with h | h
        · cases h
        · cases h

/-- C5 witness: a completed get event holding item 3 returns it once to each
store, and the context manager reports False. -/
theorem claim_C5_witness :
    (StoreRequest.exitScope ⟨true, some 3⟩
        (⟨none, [], []⟩ : VidigiStore Nat)).1.heldCount 3
      = (⟨none, [], []⟩ : VidigiStore Nat).heldCount 3 + 1
    ∧ (OptimizedStoreRequest.exitScope ⟨true, some 3⟩
        (VidigiPriorityStore.init none (α := Nat))).1.deliveredCount 3
      = (VidigiPriorityStore.init none (α := Nat)).deliveredCount 3 + 1 :=
  (claim_C5_scope_exit ⟨true, some 3⟩ ⟨none, [], []⟩
    (VidigiPriorityStore.init none)).2.2.1 3 rfl rfl

/-- C7: a BaseEvent with event_type arrival_departure and any event other
than arrival or depart fails validation with the invalid-input error, while
event_type resource_use with no resource_id validates successfully with
exactly one non-fatal warning. -/
theorem claim_C7_validation (ev : String) (h1 : ev ≠ "arrival") (h2 : ev ≠ "depart")
    (eid : Nat) (t : Rat) (rid : Option Int) (eid2 : Nat) (ev2 : String) (t2 : Rat) :
    BaseEvent.validate ⟨eid, "arrival_departure", ev, t, none, none, rid⟩
      = .error (eventLogicError ev)
    ∧ BaseEvent.validate ⟨eid2, "resource_use", ev2, t2, none, none, none⟩
      = .ok (⟨eid2, "resource_use", ev2, t2, none, none, none⟩,
             [missingResourceIdWarning "resource_use"]) := by
  constructor
  · unfold BaseEvent.validate
    rw [if_pos ⟨rfl, h1, h2⟩]
  · unfold BaseEvent.validate
    rw [if_neg (fun hcon =>
      absurd hcon.1 (show ¬("resource_use" = "arrival_departure") by decide))]
    rfl

/-- C7 witness: event waiting under arrival_departure is rejected; a
resource_use event with no resource_id is accepted with one warning. -/
theorem claim_C7_witness :
    BaseEvent.validate ⟨1, "arrival_departure", "waiting", 0, none, none, none⟩
      = .error (eventLogicError "waiting")
    ∧ BaseEvent.validate ⟨2, "resource_use", "start", 3, none, none, none⟩
      = .ok (⟨2, "resource_use", "start", 3, none, none, none⟩,
             [missingResourceIdWarning "resource_use"]) :=
  claim_C7_validation "waiting" (by decide) (by decide) 1 0 none 2 "start" 3

/-- C10: the two store variants use different default priorities (999 for the
legacy get request, 0 for the optimized get/request), so an unprioritized
request mixed with an explicit priority-5 request is granted in opposite
orders by the two variants: the legacy queue puts the explicit request first
(5 < 999), the optimized queue puts the unprioritized request first (0 < 5). -/
theorem claim_C10_default_priorities :
    PriorityGetLegacy.defaultPriority = 999
    ∧ VidigiPriorityStore.defaultPriority = 0
    ∧ PriorityGetLegacy.defaultPriority ≠ VidigiPriorityStore.defaultPriority
    ∧ (buildLegacyQueue
        [⟨PriorityGetLegacy.defaultPriority, 0, true⟩,
         ⟨5, 1, true⟩]).head?.map PriorityGetLegacy.priority = some 5
    ∧ (((VidigiPriorityStore.init none (α := Nat)).applyOps
        [POp.get VidigiPriorityStore.defaultPriority,
         POp.get 5]).getQueue).head?.map GetReq.priority
      = some VidigiPriorityStore.defaultPriority := by
  decide

/-- C2: with 55 entities in one (event, snapshot) group and
step_snapshot_max = 50, the claim says exactly 50 individual rows are emitted
and no row of rank above 51 appears.  The source computes the rank filter into
an unused variable (prep.py line 159, the suspected source of bug 53), so the
code emits 54 individual rows, keeping ranks 52-55; the overflow row itself
(rank 51, additional = 55 - 50 - 1 = 4) is emitted as described. -/
theorem claim_C2_overflow_rows :
    (reshape_for_animations c2log 1 1 50).isSome = true
    ∧ (c2group.filter (fun r => r.additional.isNone)).length = 54
    ∧ (c2group.filter (fun r => !r.additional.isNone)).length = 1
    ∧ c2group.any (fun r => r.additional == some 4 && r.rank == 51) = true
    ∧ c2group.any (fun r => decide (51 < r.rank)) = true := by
  decide

/-- C6 counterexample: the claim says the single-entity log sampled with
stride 10 and limit 40 produces snapshot rows at times 0, 10, 20 and 30, but
the entity departs at 25, so the presence filter (depart at or after the
sampled time) excludes it at time 30 and no row with snapshot time 30 (or
event time 30) exists in the output. -/
theorem claim_C6_counterexample :
    (reshape_for_animations c6log 10 40 50).isSome = true
    ∧ ((reshape_for_animations c6log 10 40 50).getD []).all
        (fun r => !(r.snapshot_time == 30) && !(r.time == (30 : Rat))) = true := by
  decide

/-- C6 amended: the output has exactly the three snapshot rows at times 0, 10
and 20, plus one synthetic exit row at time 10 (the last observed event time 0
plus the stride), and no row at time 40 or later. -/
theorem claim_C6_amended :
    ((reshape_for_animations c6log 10 40 50).getD []).length = 4
    ∧ (((reshape_for_animations c6log 10 40 50).getD []).filter
        (fun r => !(r.event == "exit"))).map (fun r => r.snapshot_time) = [0, 10, 20]
    ∧ (((reshape_for_animations c6log 10 40 50).getD []).filter
        (fun r => r.event == "exit")).map (fun r => r.time) = [10]
    ∧ ((reshape_for_animations c6log 10 40 50).getD []).all
        (fun r => decide (r.time < 40) && decide (r.snapshot_time < 40)) = true := by
  decide

theorem queuePos_eval (w g grow x y : Rat) (smax : Nat) (r : Nat)
    (hr : 1 ≤ r) (hw : (r : Rat) - 1 < w) (h0 : 0 < w) (hnud : r ≠ smax + 1) :
    queuePos w smax g grow x y r = (x - ((r : Rat) - 1) * g, y) := by
  have h1 : (0 : Rat) ≤ ((r : Rat) - 1) / w := by
    apply div_nonneg _ (le_of_lt h0)
    have hcast : (1 : Rat) ≤ (r : Rat) := by exact_mod_cast hr
    linarith
  have h2 : ((r : Rat) - 1) / w < 1 := (div_lt_one h0).mpr hw
  have hge : (0 : Int) ≤ Rat.floor (((r : Rat) - 1) / w) :=
    Rat.le_floor.mpr (by exact_mod_cast h1)
  have hlt : Rat.floor (((r : Rat) - 1) / w) < 1 := by
    by_contra hc
    push_neg at hc
    have hcast := Rat.le_floor.mp hc
    rw [Int.cast_one] at hcast
    linarith
  have hfl : Rat.floor (((r : Rat) - 1) / w) = 0 := by omega
  have hnudQ : ((r : Rat) ≠ (smax : Rat) + 1) := by exact_mod_cast hnud
  simp only [queuePos, hfl, Int.cast_zero, if_pos hnudQ]
  rw [Prod.mk.injEq]
  constructor <;> ring

/-- C8 counterexample: the claim says the positioning transform is idempotent
on queue rows whose rank is at or below the wrap threshold.  For a rank-2 row
at anchor (100, 100) with the default gaps (entities 10, rows 30), wrap
threshold 20 and step_snapshot_max 50, the first pass gives x_final = 90 and a
second pass over that output gives 80, so the transform is not idempotent. -/
theorem claim_C8_counterexample :
    queuePos 20 50 10 30 (queuePos 20 50 10 30 100 100 2).1
        (queuePos 20 50 10 30 100 100 2).2 2
      ≠ queuePos 20 50 10 30 100 100 2 := by
  decide

/-- C8 amended: for a queue row with 1 ≤ rank, rank - 1 below the wrap
threshold and rank not the overflow rank, re-applying the positioning
transform to its own output shifts x_final left by a further
(rank - 1) * gap_between_entities and leaves y_final unchanged — so the
transform is idempotent exactly on rank-1 rows, while re-running it on the
same base anchor is deterministic by construction. -/
theorem claim_C8_second_pass (x y : Rat) (r : Nat) (w g grow : Rat) (smax : Nat)
    (hr : 1 ≤ r) (hw : (r : Rat) - 1 < w) (h0 : 0 < w) (hnud : r ≠ smax + 1) :
    queuePos w smax g grow (queuePos w smax g grow x y r).1
        (queuePos w smax g grow x y r).2 r
      = ((queuePos w smax g grow x y r).1 - ((r : Rat) - 1) * g,
         (queuePos w smax g grow x y r).2) := by
  rw [queuePos_eval w g grow x y smax r hr hw h0 hnud]
  exact queuePos_eval w g grow _ _ smax r hr hw h0 hnud

/-- C8 witness: the amended statement at the counterexample input, where the
second pass lands 10 pixels further left. -/
theorem claim_C8_witness :
    queuePos 20 50 10 30 (queuePos 20 50 10 30 100 100 2).1
        (queuePos 20 50 10 30 100 100 2).2 2
      = ((queuePos 20 50 10 30 100 100 2).1 - (((2 : Nat) : Rat) - 1) * 10,
         (queuePos 20 50 10 30 100 100 2).2) :=
  claim_C8_second_pass 100 100 2 20 10 30 50 (by norm_num) (by norm_num)
    (by norm_num) (by decide)

/-- C9 counterexample: on a snapshot with an overflow row of additional = 4,
the layout stage labels it with the space-padded text given by the 5d format
spec, which differs from the zero-padded label the claim describes. -/
theorem claim_C9_counterexample :
    generate_animation_df c9rows c9eventPositions (some 20) none 50 10 10 30 none
      = some c9out
    ∧ c9out.any
        (fun p => p.additional == some 4 && p.icon != specZeroPaddedLabel 4) = true
    ∧ overflowIconLabel 4 ≠ specZeroPaddedLabel 4 := by
  decide

/-- C9 amended: in the output of `generate_animation_df`, every overflow row
(a row with a non-null additional value n) receives, in place of an icon, the
literal text label of `+ NNNNN more` with the count right-aligned in a
5-character field padded with spaces. -/
theorem claim_C9_overflow_label (rows : List SnapRow) (eventPos : List EventPos)
    (wq wr : Option Rat) (smax : Nat) (g1 g2 g3 : Rat)
    (icons : Option (List String)) (out : List PosRow)
    (hout : generate_animation_df rows eventPos wq wr smax g1 g2 g3 icons = some out)
    (p : PosRow) (hp : p ∈ out) (n : Int) (hn : p.additional = some n) :
    p.icon = overflowIconLabel n := by
  cases wq with
  | none => simp [generate_animation_df] at hout
  | some w =>
    simp only [generate_animation_df] at hout
    split at hout
    · exact Option.noConfusion hout
    · rw [Option.some_inj] at hout
      subst hout
      rcases List.mem_append.mp hp with hpA | hpB
      · have hnone := (List.mem_filter.mp hpA).2
        rw [Option.isNone_iff_eq_none] at hnone
        rw [hnone] at hn
        exact Option.noConfusion hn
      · obtain ⟨q, hqmem, hfq⟩ := List.mem_map.mp hpB
        have hq2 := (List.mem_filter.mp hqmem).2
        cases hqa : q.additional with
        | none => rw [hqa] at hq2; simp at hq2
        | some m =>
          rw [hqa] at hfq
          subst hfq
          simp only [hqa] at hn
          rw [Option.some_inj] at hn
          subst hn
          rfl

/-- C9 witness: the overflow row of the concrete C9 run carries the
space-padded label. -/
theorem claim_C9_witness :
    (⟨2, "queue", "wait", 0, none, 2, some 4, 0, some 90, some 100,
        overflowIconLabel 4⟩ : PosRow).icon = overflowIconLabel 4 :=
  claim_C9_overflow_label c9rows c9eventPositions (some 20) none 50 10 10 30 none
    c9out (by decide)
    ⟨2, "queue", "wait", 0, none, 2, some 4, 0, some 90, some 100,
        overflowIconLabel 4⟩ (by decide) 4 (by decide)
